import Mathlib

/-!
Verification of the FedEx international shipping CSV splitter
(`fedex_csv_splitter_enhanced.py`) against its natural-language
specification.

Modelling conventions (shallow embedding):
* A pandas cell is `Cell`: a missing value (`na`, pandas `NaN`/`None`),
  a string, or a number.  Numbers are modelled as exact rationals `ℚ`;
  the Python code uses binary floats, but every claim under study is
  about the comparison/overwrite logic, which is expressed here in
  exact arithmetic.  Arithmetic on a missing value propagates `none`
  and every ordered comparison against a missing value is false,
  exactly as pandas `NaN` behaves.
* Python `str.strip` / `re.sub(r"\s+", " ")` whitespace is modelled by
  the ASCII whitespace set (space, tab, newline, carriage return,
  vertical tab, form feed); `str.upper`, `str.isalpha` and `\d` are
  modelled by their ASCII counterparts, which cover every input the
  program's own data dictionary produces.
* Steps of the pipeline are functions returning `Option` state: `none`
  models a caught exception, after which the step returns `False` in
  Python and the pipeline stops.
-/

namespace FedEx

/-- One pandas cell: missing (`NaN`), a string, or a number. -/
inductive Cell where
  | na : Cell
  | str : String → Cell
  | num : ℚ → Cell
deriving DecidableEq, Repr

/-- Model of `pd.isna` on a cell. -/

def Cell.isna : Cell → Bool
  | Cell.na => true
  | _ => false

/-- Model of Python `str(cell)`.  The rendering of a rational is never
relied upon by any claim (Python renders binary floats); `"nan"` is the
Python rendering of `float("nan")`. -/

def pyStr : Cell → String
  | Cell.na => "nan"
  | Cell.str s => s
  | Cell.num q => toString q

/-- Model of Python truthiness `not country` on a cell's payload:
the empty string and the number zero are falsy. -/

def pyFalsy : Cell → Bool
  | Cell.na => true
  | Cell.str s => s = ""
  | Cell.num q => q = 0

/-- ASCII whitespace, the characters matched by `\s` / stripped by
`str.strip` on the data this program handles. -/

def isPySp (c : Char) : Bool :=
  c = ' ' || c = '\t' || c = '\n' || c = '\r' || c = Char.ofNat 11 || c = Char.ofNat 12

/-- Python `str.strip` (both ends) on a character list. -/

def stripL (l : List Char) : List Char :=
  ((l.dropWhile isPySp).reverse.dropWhile isPySp).reverse

/-- Python `str.strip` on a string. -/

def pyStrip (s : String) : String :=
  String.mk (stripL s.toList)

/-- Python `str.upper` (ASCII) on a string. -/

def pyUpper (s : String) : String :=
  String.mk (s.toList.map Char.toUpper)

/-- Python `str.lower` (ASCII) on a string. -/

def pyLower (s : String) : String :=
  String.mk (s.toList.map Char.toLower)

/-- The static `COUNTRY_CODES` table of `CountryCodeMapper`, verbatim. -/
def COUNTRY_CODES : List (String × String) :=
  [("UNITED STATES", "US"), ("USA", "US"), ("U.S.A", "US"), ("U.S.", "US"),
   ("CANADA", "CA"), ("MEXICO", "MX"),
   ("UNITED KINGDOM", "GB"), ("UK", "GB"), ("GREAT BRITAIN", "GB"), ("ENGLAND", "GB"),
   ("SCOTLAND", "GB"), ("WALES", "GB"), ("NORTHERN IRELAND", "GB"),
   ("FRANCE", "FR"), ("GERMANY", "DE"), ("SPAIN", "ES"), ("ITALY", "IT"),
   ("NETHERLANDS", "NL"), ("HOLLAND", "NL"), ("BELGIUM", "BE"), ("SWITZERLAND", "CH"),
   ("AUSTRIA", "AT"), ("SWEDEN", "SE"), ("NORWAY", "NO"), ("DENMARK", "DK"),
   ("FINLAND", "FI"), ("IRELAND", "IE"), ("PORTUGAL", "PT"), ("GREECE", "GR"),
   ("POLAND", "PL"), ("CZECH REPUBLIC", "CZ"), ("HUNGARY", "HU"), ("ROMANIA", "RO"),
   ("AUSTRALIA", "AU"), ("NEW ZEALAND", "NZ"), ("JAPAN", "JP"), ("CHINA", "CN"),
   ("SOUTH KOREA", "KR"), ("KOREA", "KR"), ("SINGAPORE", "SG"), ("HONG KONG", "HK"),
   ("TAIWAN", "TW"), ("THAILAND", "TH"), ("MALAYSIA", "MY"), ("INDONESIA", "ID"),
   ("PHILIPPINES", "PH"), ("VIETNAM", "VN"), ("INDIA", "IN"),
   ("ISRAEL", "IL"), ("SAUDI ARABIA", "SA"), ("UAE", "AE"),
   ("UNITED ARAB EMIRATES", "AE"), ("DUBAI", "AE"),
   ("BRAZIL", "BR"), ("ARGENTINA", "AR"), ("CHILE", "CL"), ("COLOMBIA", "CO"),
   ("PERU", "PE"), ("VENEZUELA", "VE"),
   ("SOUTH AFRICA", "ZA"), ("EGYPT", "EG"), ("MOROCCO", "MA"), ("KENYA", "KE")]

/-- First-match association lookup, the model of a Python `dict` access. -/

def lookupCC : List (String × String) → String → Option String
  | [], _ => none
  | (k, v) :: rest, s => if s = k then some v else lookupCC rest s

/-- Model of `CountryCodeMapper.standardize_country`:
empty / missing input yields `"XX"`; a cleaned 2-letter alphabetic
string is returned unchanged; otherwise the static table is consulted;
otherwise the first two characters are used (or `"XX"` when the string
is shorter than two characters).  The `logger.warning` calls touch no
program state and are not modelled. -/

def cleanedCountry (country : Cell) : String :=
  pyUpper (pyStrip (pyStr country))

/-- Case split of `standardize_country` after the empty check, on the
cleaned, uppercased input (`country_clean` in the source). -/

def standardizeClean (country_clean : String) : String :=
  if country_clean.length = 2 && country_clean.toList.all Char.isAlpha then
    country_clean
  else
    match lookupCC COUNTRY_CODES country_clean with
    | some code => code
    | none =>
        if 2 ≤ country_clean.length then String.mk (country_clean.toList.take 2)
        else "XX"

def standardize_country (country : Cell) : String :=
  if country.isna || pyFalsy country then "XX"
  else standardizeClean (cleanedCountry country)

/-- Squash every maximal run of whitespace characters to one space:
the model of `re.sub(r"\s+", " ", text)`. -/
def squashL : List Char → List Char
  | [] => []
  | [c] => [if isPySp c then ' ' else c]
  | c :: d :: rest =>
      if isPySp c && isPySp d then squashL (d :: rest)
      else (if isPySp c then ' ' else c) :: squashL (d :: rest)

/-- Replace `'\n'`, `'\r'` and `'\t'` by a space, as the three
`str.replace` calls of `clean_text_field` do. -/

def breaksToSpace (l : List Char) : List Char :=
  l.map (fun c => if c = '\n' || c = '\r' || c = '\t' then ' ' else c)

/-- The character-list core of `DataCleaner.clean_text_field`: remove
commas, replace line breaks and tabs with spaces, collapse whitespace
runs, strip. -/

def cleanTextL (l : List Char) : List Char :=
  stripL (squashL (breaksToSpace (l.filter (fun c => c ≠ ','))))

/-- Model of `DataCleaner.clean_text_field` on a cell. -/

def clean_text_field (text : Cell) : String :=
  if text.isna then "" else String.mk (cleanTextL (pyStr text).toList)

/-- Model of `DataCleaner.clean_phone_number`:
`re.sub(r"[^\d+]", "", phone)` keeps exactly the digits and every
`'+'` sign, wherever they occur. -/

def clean_phone_number (phone : Cell) : String :=
  if phone.isna then ""
  else String.mk ((pyStr phone).toList.filter (fun c => c.isDigit || c = '+'))

/-- Model of `DataCleaner.clean_postal_code`: uppercase, strip,
collapse whitespace runs. -/

def clean_postal_code (postal : Cell) : String :=
  if postal.isna then ""
  else String.mk (squashL (pyStrip (pyUpper (pyStr postal))).toList)

/-- Modelled from the claim's words, for refinement comparison with the
code: the output holds only digits plus at most one `'+'`, and any
`'+'` is at the leading position. -/
def phoneSpecShape (s : String) : Prop :=
  (∀ c ∈ s.toList, c.isDigit = true ∨ c = '+') ∧
  s.toList.count '+' ≤ 1 ∧
  ∀ i : Fin s.toList.length, s.toList.get i = '+' → i.val = 0


/-- Column header names used by the pipeline (verbatim from the source). -/
def REF_COL : String := "REFERENCE # (Recipient 1, 2, etc.)"

def QTY_COL : String := "QUANTITY (required)"

def PRICE_COL : String := "UNIT PRICE (required)"

def VALUE_COL : String := "DECLARED VALUE (required)"

def COUNTRY_COL : String := "COUNTRY (required)"

def PHONE_COL : String := "RECIPIENT PHONE # (required)"

/-- The `text_columns` list of `clean_data`, verbatim. -/

def TEXT_COLUMNS : List String :=
  ["SHIP TO ATTENTION (required)",
   "RECIPIENT EMAIL (if applicable)",
   "COMPANY NAME (if applicable)",
   "SHIP TO ADDRESS LINE 1 (required)",
   "SHIP TO ADDRESS LINE 2 (if applicable)",
   "CITY (required)",
   "STATE / PROVINCE (if applicable)",
   "BILLING - 3RD PARTY COMPANY NAME (required)",
   "BILLING - 3RD PARTY ADDRESS 1 (required)",
   "BILLING - 3RD PARTY ADDRESS 2 (if applicable)",
   "BILLING - 3RD PARTY CITY (required)",
   "ITEM DESCRIPTION (required)",
   "STYLE # (required)"]

/-- The `postal_cols` list of `clean_data`, verbatim. -/

def POSTAL_COLUMNS : List String :=
  ["POSTAL CODE (required)", "BILLING - 3RD PARTY POSTAL CODE (required)"]

/-- A loaded dataframe: a header row of column names and data rows of
cells, column-aligned by position. -/

structure Table where
  header : List String
  rows : List (List Cell)
deriving DecidableEq, Repr

/-- The mutable state owned by `FedExCSVSplitterEnhanced`: the working
dataframe and the two accumulated issue sequences. -/

structure PState where
  df : Table
  validation_errors : List String
  validation_warnings : List String
deriving DecidableEq, Repr

/-- First-match column lookup in the header, the model of pandas
named-column access. -/

def colIdx : List String → String → Option Nat
  | [], _ => none
  | h :: t, name => if h = name then some 0 else (colIdx t name).map (fun i => i + 1)

/-- Cell of a row at a column position (rows are rectangular; a missing
position reads as `NaN`). -/

def cellAt (row : List Cell) (i : Nat) : Cell := row.getD i Cell.na

/-- Apply a per-cell function to one named column when present: the
`if col in self.df.columns: self.df[col] = self.df[col].apply(...)`
pattern of `clean_data`. -/

def updateColumn (t : Table) (name : String) (f : Cell → Cell) : Table :=
  match colIdx t.header name with
  | none => t
  | some i => { header := t.header, rows := t.rows.map (fun r => r.set i (f (cellAt r i))) }

/-- The text-column cleaning loop of `clean_data`. -/

def applyTextCleaners (t : Table) : Table :=
  TEXT_COLUMNS.foldl (fun acc col => updateColumn acc col (fun c => Cell.str (clean_text_field c))) t

/-- The cleaning pass of `clean_data` on the dataframe: text columns,
phone, postal codes, then country standardization.  The
country-conversion logging loop touches no state and is not modelled. -/

def cleanDF (t : Table) : Table :=
  updateColumn
    ((POSTAL_COLUMNS.foldl
        (fun acc col => updateColumn acc col (fun c => Cell.str (clean_postal_code c)))
        (updateColumn (applyTextCleaners t) PHONE_COL
          (fun c => Cell.str (clean_phone_number c)))))
    COUNTRY_COL (fun c => Cell.str (standardize_country c))

/-- Model of `FedExCSVSplitterEnhanced.clean_data`.  Every cleaner is
total, so the step always succeeds; it never touches the issue
sequences. -/

def clean_data (st : PState) : Option PState :=
  some { df := cleanDF st.df,
         validation_errors := st.validation_errors,
         validation_warnings := st.validation_warnings }

/-- Numeric reading of a cell (`NaN` and strings read as `none`). -/
def cellQ : Cell → Option ℚ
  | Cell.num q => some q
  | _ => none

/-- A cell pandas numeric arithmetic accepts: a number or `NaN`.
A string-typed cell makes the subtraction raise, which the step's
`except` turns into failure. -/

def isNumTyped : Cell → Bool
  | Cell.str _ => false
  | _ => true

/-- Missing-value-propagating multiplication, as pandas `NaN` behaves. -/

def optMul (a b : Option ℚ) : Option ℚ :=
  match a, b with
  | some x, some y => some (x * y)
  | _, _ => none

/-- The mismatch test `(value - calculated).abs() > tolerance`:
any comparison against `NaN` is false, as in pandas. -/

def mismatchTol (v calcv : Option ℚ) : Bool :=
  match v, calcv with
  | some a, some b => (1 : ℚ)/100 < |a - b|
  | _, _ => false

/-- Round half to even, the rounding of Python float formatting and of
pandas `round`. -/

def roundHalfEven (x : ℚ) : ℤ :=
  if x - Int.floor x < 1/2 then Int.floor x
  else if 1/2 < x - Int.floor x then Int.floor x + 1
  else if Int.floor x % 2 = 0 then Int.floor x else Int.floor x + 1

/-- Two-decimal fixed-point rendering, the model of Python `f"{x:.2f}"`
(the exact digits of a warning message are never load-bearing for a
claim; `"nan"` is the rendering of a missing value). -/

def fmt2 (q : Option ℚ) : String :=
  match q with
  | none => "nan"
  | some x =>
      let n := roundHalfEven (x * 100)
      (if n < 0 then "-" else "") ++ toString (n.natAbs / 100) ++ "." ++
        toString (n.natAbs % 100 / 10) ++ toString (n.natAbs % 10)

/-- The per-row mismatch flag of `calculate_declared_values`. -/

def mismRow (qi pi0 vi : Nat) (r : List Cell) : Bool :=
  mismatchTol (cellQ (cellAt r vi)) (optMul (cellQ (cellAt r qi)) (cellQ (cellAt r pi0)))

/-- The warning message for one mismatching row at 0-based dataframe
index `idx` (`Row{idx+2}` counts the header row and 1-based numbering). -/

def mismMsg (qi pi0 vi ri : Nat) (idx : Nat) (r : List Cell) : String :=
  "Ref#" ++ pyStr (cellAt r ri) ++ " Row" ++ toString (idx + 2) ++
    ": Declared value corrected " ++ fmt2 (cellQ (cellAt r vi)) ++ " → " ++
    fmt2 (optMul (cellQ (cellAt r qi)) (cellQ (cellAt r pi0)))

/-- The `mismatches.iterrows()` loop: one warning per mismatching row,
in row order. -/

def mismWarningsAux (qi pi0 vi ri : Nat) : Nat → List (List Cell) → List String
  | _, [] => []
  | idx, r :: rest =>
      if mismRow qi pi0 vi r then
        mismMsg qi pi0 vi ri idx r :: mismWarningsAux qi pi0 vi ri (idx + 1) rest
      else mismWarningsAux qi pi0 vi ri (idx + 1) rest

/-- The warning messages appended for the mismatching rows. -/

def mismWarnings (t : Table) (qi pi0 vi ri : Nat) : List String :=
  mismWarningsAux qi pi0 vi ri 0 t.rows

/-- The column-wide overwrite
`self.df[value_col] = self.df['_calculated_value']`: every row's
declared value becomes quantity × unit price. -/

def overwriteValues (t : Table) (qi pi0 vi : Nat) : Table :=
  { header := t.header,
    rows := t.rows.map (fun r =>
      r.set vi (match optMul (cellQ (cellAt r qi)) (cellQ (cellAt r pi0)) with
                | some q => Cell.num q
                | none => Cell.na)) }

/-- All three numeric columns are arithmetic-typed in every row. -/

def numTypedOK (t : Table) (qi pi0 vi : Nat) : Bool :=
  t.rows.all (fun r => isNumTyped (cellAt r qi) && isNumTyped (cellAt r pi0)
    && isNumTyped (cellAt r vi))

/-- Model of `FedExCSVSplitterEnhanced.calculate_declared_values`.
The `_calculated_value` / `_value_mismatch` helper columns are added
and dropped again with no net effect, so they are kept implicit.  The
reference column is only read inside the mismatch loop, so its absence
fails the step only when a mismatch exists.  The whole value column is
overwritten when at least one row mismatches. -/

def calcWithCols (st : PState) (qi pi0 vi : Nat) : Option PState :=
  if numTypedOK st.df qi pi0 vi then
    if st.df.rows.any (fun r => mismRow qi pi0 vi r) then
      match colIdx st.df.header REF_COL with
      | some ri =>
          some { df := overwriteValues st.df qi pi0 vi,
                 validation_errors := st.validation_errors,
                 validation_warnings :=
                   st.validation_warnings ++ mismWarnings st.df qi pi0 vi ri }
      | none => none
    else some st
  else none

def calculate_declared_values (st : PState) : Option PState :=
  match colIdx st.df.header QTY_COL, colIdx st.df.header PRICE_COL,
      colIdx st.df.header VALUE_COL with
  | some qi, some pi0, some vi => calcWithCols st qi pi0 vi
  | _, _, _ => none

/-- The `required_fields` list of `validate_address`, verbatim. -/
def REQUIRED_FIELDS : List String :=
  ["SHIP TO ATTENTION (required)",
   "SHIP TO ADDRESS LINE 1 (required)",
   "CITY (required)",
   "COUNTRY (required)",
   "POSTAL CODE (required)"]

/-- The emptiness test of `validate_required_fields`:
`pd.isna(value) or str(value).strip() == ""`. -/

def missingCell (c : Cell) : Bool := c.isna || pyStrip (pyStr c) = ""

/-- Model of a `pd.Series` row with named access (`row.get(field)`
reads `None`, i.e. missing, for an absent name). -/

def seriesGet (header : List String) (cells : List Cell) : String → Cell :=
  fun col =>
    match colIdx header col with
    | some i => cellAt cells i
    | none => Cell.na

/-- Model of `AddressValidator.validate_address`: the five required
fields are checked in order, then the phone field, all failures
collected; each message is tagged `Ref#<ref>`. -/

def validate_address (row : String → Cell) (refS : String) : Bool × List String :=
  let errors := REQUIRED_FIELDS.foldl (fun acc field =>
    if missingCell (row field) then
      acc ++ ["Ref#" ++ refS ++ ": Missing required field: " ++ field]
    else acc) []
  let errors2 :=
    if missingCell (row PHONE_COL) then
      errors ++ ["Ref#" ++ refS ++ ": Missing phone number"]
    else errors
  (errors2.length == 0, errors2)

/-- First-occurrence-ordered distinct values, structurally recursive on
a fuel bounded by the list length (filtering never lengthens the
tail, so the fuel always suffices). -/

def uniqueCellsAux : Nat → List Cell → List Cell
  | 0, _ => []
  | _, [] => []
  | fuel + 1, c :: cs => c :: uniqueCellsAux fuel (cs.filter (fun x => x ≠ c))

/-- First-occurrence-ordered distinct values: `pd.Series.unique`. -/

def uniqueCells (l : List Cell) : List Cell := uniqueCellsAux l.length l

/-- Pandas element-wise equality `df[col] == value`: `NaN` equals
nothing, not even itself. -/

def pdEq (a b : Cell) : Bool :=
  match a, b with
  | Cell.str s, Cell.str t2 => s = t2
  | Cell.num q, Cell.num r => q = r
  | _, _ => false

/-- Validation-error collection over the unique reference values: each
looks up the first row bearing the reference and validates its address
fields; a reference with no equal row (possible only for `NaN`) makes
`.iloc[0]` raise, failing the step. -/

def collectAddrErrors (header : List String) (rows : List (List Cell)) (ri : Nat) :
    List Cell → Option (List String)
  | [] => some []
  | ref :: rest =>
      match rows.find? (fun r => pdEq (cellAt r ri) ref) with
      | none => none
      | some firstRow =>
          let res := validate_address (seriesGet header firstRow) (pyStr ref)
          match collectAddrErrors header rows ri rest with
          | none => none
          | some es => some ((if res.1 then [] else res.2) ++ es)

/-- Model of `FedExCSVSplitterEnhanced.validate_addresses`. -/

def validate_addresses (st : PState) : Option PState :=
  match colIdx st.df.header REF_COL with
  | none => none
  | some ri =>
      match collectAddrErrors st.df.header st.df.rows ri
          (uniqueCells (st.df.rows.map (fun r => cellAt r ri))) with
      | none => none
      | some es => some { st with validation_errors := st.validation_errors ++ es }

/-- Columns 0–20, `df.iloc[:, 0:21]` (lenient, like a Python slice). -/
def recipientOf (t : Table) : Table :=
  { header := t.header.take 21, rows := t.rows.map (fun r => r.take 21) }

/-- Columns 21–30, `df.iloc[:, 21:31]` (lenient, like a Python slice). -/

def commodityOf (t : Table) : Table :=
  { header := (t.header.drop 21).take 10, rows := t.rows.map (fun r => (r.drop 21).take 10) }

/-- Model of `FedExCSVSplitterEnhanced.split_data`: positional slicing
never raises, whatever the column count. -/

def split_data (st : PState) : Option (PState × Table × Table) :=
  some (st, recipientOf st.df, commodityOf st.df)

/-- Pandas `.round(2)` on one cell; a string-typed cell raises. -/

def roundCell2 : Cell → Option Cell
  | Cell.na => some Cell.na
  | Cell.num q => some (Cell.num ((roundHalfEven (q * 100) : ℚ) / 100))
  | Cell.str _ => none

/-- Round a whole column at position `i`. -/

def roundColumnRows (rows : List (List Cell)) (i : Nat) : Option (List (List Cell)) :=
  rows.mapM (fun r => (roundCell2 (cellAt r i)).map (fun c => r.set i c))

/-- The `numeric_cols` rounding loop of `save_csvs` over a list of
column names, skipping names absent from the table. -/

def roundColsAux (t : Table) : List String → Option Table
  | [] => some t
  | col :: rest =>
      match colIdx t.header col with
      | none => roundColsAux t rest
      | some i =>
          match roundColumnRows t.rows i with
          | none => none
          | some rows2 => roundColsAux { header := t.header, rows := rows2 } rest

/-- Rounding of `UNIT PRICE` and `DECLARED VALUE` before saving. -/

def roundCols (t : Table) : Option Table :=
  roundColsAux t [PRICE_COL, VALUE_COL]

/-- A validation report: row count, distinct non-missing reference
count (`nunique`), and the two frozen issue sequences. -/

structure Report where
  totalRows : Nat
  uniqueRecipients : Nat
  errors : List String
  warnings : List String
deriving DecidableEq, Repr

def mkReport (st : PState) (ri : Nat) : Report :=
  { totalRows := st.df.rows.length,
    uniqueRecipients :=
      ((uniqueCells (st.df.rows.map (fun r => cellAt r ri))).filter
        (fun c => !c.isna)).length,
    errors := st.validation_errors,
    warnings := st.validation_warnings }

/-- One artifact written to the output directory. -/

inductive OutputFile where
  | recipientFile : Table → OutputFile
  | commodityFile : Table → OutputFile
  | reportFile : Report → OutputFile
deriving DecidableEq, Repr

/-- Model of `FedExCSVSplitterEnhanced.save_csvs` (and the report it
writes).  Rounding happens before any file is written; the recipient
and commodity files are written before the report, whose `nunique`
call raises when the reference column is absent — in that case two
files are already on disk when the step fails. -/

def save_csvs (st : PState) (rec com : Table) : Bool × List OutputFile :=
  match roundCols com with
  | none => (false, [])
  | some com2 =>
      match colIdx st.df.header REF_COL with
      | some ri =>
          (true, [OutputFile.recipientFile rec, OutputFile.commodityFile com2,
                  OutputFile.reportFile (mkReport st ri)])
      | none => (false, [OutputFile.recipientFile rec, OutputFile.commodityFile com2])

/-- The input file as the pipeline observes it: whether the path
exists, its extension (`Path.suffix`), and the table obtained when
reading it succeeds. -/
structure InputFile where
  present : Bool
  suffix : String
  content : Option Table

def VALID_EXTENSIONS : List String := [".xlsx", ".xls", ".csv"]

/-- Model of `validate_input_file`: the path must exist and its
lower-cased suffix must be a supported extension. -/

def validate_input_file (f : InputFile) : Bool :=
  f.present && VALID_EXTENSIONS.contains (pyLower f.suffix)

/-- Outcome of one `process` run: the returned flag, whether data was
loaded, and the output files written, in writing order. -/

structure ProcResult where
  success : Bool
  dataLoaded : Bool
  written : List OutputFile
deriving DecidableEq, Repr

/-- Outcome of a run whose data loaded but a later step returned
`False`: the pipeline stops, nothing is written. -/

def stepFailed : ProcResult := { success := false, dataLoaded := true, written := [] }

/-- The run from the splitting result onward. -/

def afterSplit : Option (PState × Table × Table) → ProcResult
  | none => stepFailed
  | some (st4, rec, com) =>
      { success := (save_csvs st4 rec com).1, dataLoaded := true,
        written := (save_csvs st4 rec com).2 }

/-- The run from the address-validation result onward. -/

def afterValidate : Option PState → ProcResult
  | none => stepFailed
  | some st3 => afterSplit (split_data st3)

/-- The run from the reconciliation result onward. -/

def afterCalc : Option PState → ProcResult
  | none => stepFailed
  | some st2 => afterValidate (validate_addresses st2)

/-- The run from the cleaning result onward. -/

def afterClean : Option PState → ProcResult
  | none => stepFailed
  | some st1 => afterCalc (calculate_declared_values st1)

/-- The pipeline from a successfully loaded table onward. -/

def processTable (t : Table) : ProcResult :=
  afterClean (clean_data { df := t, validation_errors := [], validation_warnings := [] })

/-- Model of `FedExCSVSplitterEnhanced.process`: the linear pipeline.
Any failing step stops the run with no further effect. -/

def process (f : InputFile) : ProcResult :=
  if validate_input_file f then
    match f.content with
    | none => { success := false, dataLoaded := false, written := [] }
    | some t => processTable t
  else { success := false, dataLoaded := false, written := [] }

/-- Adjacent characters produced by whitespace squashing: at least one
of the two is not whitespace. -/
def spRel (a b : Char) : Prop := isPySp a = false ∨ isPySp b = false

/-- Drop the whitespace suffix, i.e. Python `str.rstrip`. -/
def dropEndSp (l : List Char) : List Char := (l.reverse.dropWhile isPySp).reverse


/-- A one-column, one-row state whose country cell is the empty
string. -/
def c4EmptyCountryState : PState :=
  { df := { header := [COUNTRY_COL], rows := [[Cell.str ""]] },
    validation_errors := [], validation_warnings := [] }


/-- Two-row state: the first row is out of tolerance
(declared 5, expected 2 × 5 = 10), the second within tolerance but not
exact (declared 9.99, expected 1 × 10 = 10). -/
def c2MixedState : PState :=
  { df := { header := [REF_COL, QTY_COL, PRICE_COL, VALUE_COL],
            rows := [[Cell.num 1, Cell.num 2, Cell.num 5, Cell.num 5],
                     [Cell.num 2, Cell.num 1, Cell.num 10, Cell.num (999/100)]] },
    validation_errors := [], validation_warnings := [] }

/-- The state `calculate_declared_values` produces from
`c2MixedState`. -/
def c2Result : PState :=
  { df := { header := [REF_COL, QTY_COL, PRICE_COL, VALUE_COL],
            rows := [[Cell.num 1, Cell.num 2, Cell.num 5, Cell.num 10],
                     [Cell.num 2, Cell.num 1, Cell.num 10, Cell.num 10]] },
    validation_errors := [],
    validation_warnings := ["Ref#1 Row2: Declared value corrected 5.00 → 10.00"] }

/-- Modelled from the claim's words, for refinement comparison with the
code: a row satisfies the tolerance when its declared value is within
0.01 of quantity × unit price; with a missing operand the comparison is
false, as every float comparison against `NaN` is. -/
def rowWithinTol (qi pi0 vi : Nat) (r : List Cell) : Bool :=
  match cellQ (cellAt r vi), optMul (cellQ (cellAt r qi)) (cellQ (cellAt r pi0)) with
  | some v, some c => |v - c| ≤ 1/100
  | _, _ => false

/-- One-row state whose quantity is missing (`NaN`). -/

def c5NaState : PState :=
  { df := { header := [REF_COL, QTY_COL, PRICE_COL, VALUE_COL],
            rows := [[Cell.num 1, Cell.na, Cell.num 1, Cell.num 5]] },
    validation_errors := [], validation_warnings := [] }

/-- One-row state already satisfying the tolerance exactly. -/
def c5OkState : PState :=
  { df := { header := [REF_COL, QTY_COL, PRICE_COL, VALUE_COL],
            rows := [[Cell.num 1, Cell.num 2, Cell.num 5, Cell.num 10]] },
    validation_errors := [], validation_warnings := [] }

/-- Pointwise update of one named field of a row. -/
def updateRow (row : String → Cell) (f : String) (c : Cell) : String → Cell :=
  fun g => if g = f then c else row g

/-- A 30-column input containing every named column the steps read,
with consistent quantity × unit price and a complete address. -/
def c1Table : Table :=
  { header :=
      [REF_COL, "SHIP TO ATTENTION (required)", "COMPANY NAME (if applicable)",
       "RECIPIENT EMAIL (if applicable)", PHONE_COL,
       "SHIP TO ADDRESS LINE 1 (required)", "CITY (required)",
       "STATE / PROVINCE (if applicable)", "POSTAL CODE (required)", COUNTRY_COL,
       "c11", "c12", "c13", "c14", "c15", "c16", "c17", "c18", "c19", "c20", "c21",
       "ITEM DESCRIPTION (required)", "STYLE # (required)", QTY_COL, PRICE_COL,
       VALUE_COL, "c27", "c28", "c29", "c30"],
    rows :=
      [[Cell.num 1, Cell.str "John Doe", Cell.str "Acme", Cell.str "j@x.com",
        Cell.str "5551234567", Cell.str "1 Main St", Cell.str "London",
        Cell.str "", Cell.str "N1 2AB", Cell.str "GB",
        Cell.str "a", Cell.str "b", Cell.str "c", Cell.str "d", Cell.str "e",
        Cell.str "f", Cell.str "g", Cell.str "h", Cell.str "i", Cell.str "j",
        Cell.str "k", Cell.str "Shirt", Cell.str "S1", Cell.num 2, Cell.num 5,
        Cell.num 10, Cell.str "x", Cell.str "y", Cell.str "z", Cell.str "w"]] }

/-- The 30-column table above presented as an existing `.csv` file. -/

def c1File : InputFile :=
  { present := true, suffix := ".csv", content := some c1Table }

/-- Every code stored in the static country table has two letters. -/
theorem COUNTRY_CODES_len : ∀ p ∈ COUNTRY_CODES, (p.2).length = 2 := by decide

/-- A successful association lookup returns one of the stored values. -/

theorem lookupCC_length (l : List (String × String)) (s v : String)
    (hall : ∀ p ∈ l, (p.2).length = 2) (h : lookupCC l s = some v) : v.length = 2 := by
  induction l with
  | nil => simp [lookupCC] at h
  | cons p rest ih =>
      obtain ⟨k, w⟩ := p
      by_cases hk : s = k
      · simp [lookupCC, hk] at h
        subst h
        exact hall (k, w) (List.mem_cons_self _ _)
      · simp [lookupCC, hk] at h
        exact ih (fun q hq => hall q (List.mem_cons_of_mem _ hq)) h


theorem standardizeClean_length (cc : String) : (standardizeClean cc).length = 2 := by
  unfold standardizeClean
  by_cases h2 : (cc.length = 2 && cc.toList.all Char.isAlpha) = true
  · rw [if_pos h2]
    have h2' := (Bool.and_eq_true _ _).mp h2
    exact of_decide_eq_true h2'.1
  · rw [if_neg h2]
    cases hl : lookupCC COUNTRY_CODES cc with
    | some code =>
        exact lookupCC_length _ _ _ COUNTRY_CODES_len hl
    | none =>
        by_cases hlen : 2 ≤ cc.length
        · rw [if_pos hlen]
          show (cc.toList.take 2).length = 2
          rw [List.length_take]
          have hlt : cc.toList.length = cc.length := rfl
          omega
        · rw [if_neg hlen]
          rfl

/-- Claim C7: for every input cell (empty, missing, known alias, valid
2-letter code, or unknown name), `standardize_country` returns a string
of exactly two characters. -/

theorem c7_country_code_length (country : Cell) :
    (standardize_country country).length = 2 := by
  unfold standardize_country
  by_cases h0 : (country.isna || pyFalsy country) = true
  · rw [if_pos h0]
    rfl
  · rw [if_neg h0]
    exact standardizeClean_length _

/-- Counterexample to claim C3 as stated: on input `"1+"` the cleaner
keeps the trailing `'+'`, so the output has a `'+'` that is not at the
leading position. -/
theorem c3_counterexample :
    clean_phone_number (Cell.str "1+") = "1+" ∧ ¬ phoneSpecShape "1+" := by
  constructor
  · rfl
  · intro h
    have := h.2.2 ⟨1, by decide⟩ (by decide)
    simp at this

/-- Claim C3 amended: the output of the phone cleaner contains only
digit characters and `'+'` characters; a `'+'` may occur anywhere and
more than once, since the regular expression keeps every digit and
every `'+'` of the input in place. -/

theorem c3_phone_charset (phone : Cell) :
    ∀ c ∈ (clean_phone_number phone).toList, c.isDigit = true ∨ c = '+' := by
  cases phone with
  | na => intro c hc; simp [clean_phone_number, Cell.isna, String.toList] at hc
  | str s =>
      intro c hc
      simp only [clean_phone_number, Cell.isna, if_false, Bool.false_eq_true] at hc
      have : c ∈ (pyStr (Cell.str s)).toList.filter (fun c => c.isDigit || c = '+') := hc
      simp [List.mem_filter] at this
      tauto
  | num q =>
      intro c hc
      simp only [clean_phone_number, Cell.isna, if_false, Bool.false_eq_true] at hc
      have : c ∈ (pyStr (Cell.num q)).toList.filter (fun c => c.isDigit || c = '+') := hc
      simp [List.mem_filter] at this
      tauto

theorem c3_witness : ('1'.isDigit = true ∨ '1' = '+') :=
  c3_phone_charset (Cell.str "1a") '1' (by decide)

/-- Filtering twice with the phone predicate equals filtering once. -/

theorem phone_filter_idem (l : List Char) :
    (l.filter (fun c => c.isDigit || c = '+')).filter (fun c => c.isDigit || c = '+')
      = l.filter (fun c => c.isDigit || c = '+') := by
  apply List.filter_eq_self.mpr
  intro a ha
  exact (List.mem_filter.mp ha).2

theorem bool_eq_false {b : Bool} (h : ¬ b = true) : b = false := by
  cases b
  · rfl
  · exact absurd rfl h

/-- Every character of the squashed list is a space or a non-whitespace
character of the original list. -/

theorem squashL_mem : ∀ (l : List Char) (c : Char),
    c ∈ squashL l → c = ' ' ∨ (c ∈ l ∧ isPySp c = false)
  | [], c, h => by simp [squashL] at h
  | [d], c, h => by
      by_cases hd : isPySp d = true
      · left
        simpa [squashL, hd] using h
      · right
        simp only [squashL, hd, Bool.false_eq_true, if_false, List.mem_singleton] at h
        subst h
        exact ⟨List.mem_singleton_self _, bool_eq_false hd⟩
  | a :: b :: rest, c, h => by
      simp only [squashL] at h
      by_cases hab : (isPySp a && isPySp b) = true
      · rw [if_pos hab] at h
        rcases squashL_mem (b :: rest) c h with h1 | ⟨h2, h3⟩
        · exact Or.inl h1
        · exact Or.inr ⟨List.mem_cons_of_mem _ h2, h3⟩
      · rw [if_neg hab] at h
        rcases List.mem_cons.mp h with h1 | h2
        · by_cases ha : isPySp a = true
          · left; simpa [ha] using h1
          · right
            subst h1
            rw [if_neg ha]
            exact ⟨List.mem_cons_self _ _, bool_eq_false ha⟩
        · rcases squashL_mem (b :: rest) c h2 with h3 | ⟨h4, h5⟩
          · exact Or.inl h3
          · exact Or.inr ⟨List.mem_cons_of_mem _ h4, h5⟩

/-- The squashed list headed by a non-whitespace character keeps that
character in front. -/

theorem squashL_head_of_not_sp : ∀ (b : Char) (rest : List Char), isPySp b = false →
    (squashL (b :: rest)).head? = some b
  | b, [], hb => by simp [squashL, hb]
  | b, r :: rs, hb => by
      have hg : (isPySp b && isPySp r) = false := by simp [hb]
      simp [squashL, hg, hb]

/-- Squashing never leaves two adjacent whitespace characters. -/

theorem chain'_squashL : ∀ l : List Char, List.Chain' spRel (squashL l)
  | [] => by simp [squashL]
  | [c] => by simp [squashL]
  | a :: b :: rest => by
      simp only [squashL]
      by_cases hab : (isPySp a && isPySp b) = true
      · rw [if_pos hab]
        exact chain'_squashL (b :: rest)
      · rw [if_neg hab]
        rw [List.chain'_cons']
        refine ⟨?_, chain'_squashL (b :: rest)⟩
        intro y hy
        by_cases ha : isPySp a = true
        · have hb : isPySp b = false := by
            cases hpb : isPySp b
            · rfl
            · exact absurd (by simp [ha, hpb]) hab
          rw [squashL_head_of_not_sp b rest hb] at hy
          simp only [Option.mem_some_iff] at hy
          subst hy
          exact Or.inr hb
        · rw [if_neg ha]
          exact Or.inl (by simpa using ha)

/-- Squashing a list with no adjacent whitespace, all of whose
whitespace is already a plain space, is the identity. -/

theorem squashL_eq_self : ∀ l : List Char, (∀ c ∈ l, isPySp c = true → c = ' ') →
    List.Chain' spRel l → squashL l = l
  | [], _, _ => rfl
  | [c], hall, _ => by
      by_cases hc : isPySp c = true
      · have hce : c = ' ' := hall c (List.mem_singleton_self _) hc
        simp [squashL, hc, hce]
      · simp [squashL, hc]
  | a :: b :: rest, hall, hch => by
      have hrel : spRel a b := (List.chain'_cons.mp hch).1
      have hab : ¬ (isPySp a && isPySp b) = true := by
        rcases hrel with h | h <;> simp [h]
      simp only [squashL]
      rw [if_neg hab]
      have htail : squashL (b :: rest) = b :: rest :=
        squashL_eq_self (b :: rest) (fun c hc h => hall c (List.mem_cons_of_mem _ hc) h)
          (List.chain'_cons.mp hch).2
      rw [htail]
      by_cases ha : isPySp a = true
      · have hae : a = ' ' := hall a (List.mem_cons_self _ _) ha
        simp [ha, hae]
      · simp [ha]

/-- Dropping a whitespace prefix twice equals dropping it once. -/

theorem dropWhileSp_idem : ∀ l : List Char,
    List.dropWhile isPySp (List.dropWhile isPySp l) = List.dropWhile isPySp l
  | [] => rfl
  | c :: cs => by
      by_cases hc : isPySp c = true
      · rw [List.dropWhile_cons_of_pos hc]
        exact dropWhileSp_idem cs
      · rw [List.dropWhile_cons_of_neg (by simp [hc]), List.dropWhile_cons_of_neg (by simp [hc])]


/-- Stripping is `rstrip` after `lstrip`. -/
theorem stripL_eq_dropEnd (l : List Char) : stripL l = dropEndSp (l.dropWhile isPySp) := rfl

theorem dropEndSp_cons (c : Char) (cs : List Char) :
    dropEndSp (c :: cs) =
      if (cs.reverse.dropWhile isPySp).isEmpty then
        (List.dropWhile isPySp [c]).reverse
      else c :: dropEndSp cs := by
  unfold dropEndSp
  rw [List.reverse_cons, List.dropWhile_append]
  by_cases he : (List.dropWhile isPySp cs.reverse).isEmpty = true
  · rw [if_pos he, if_pos he]
  · rw [if_neg he, if_neg he, List.reverse_append]
    rfl

/-- Stripping the two ends commutes. -/

theorem dropWhileSp_dropEnd_comm : ∀ l : List Char,
    List.dropWhile isPySp (dropEndSp l) = dropEndSp (List.dropWhile isPySp l)
  | [] => rfl
  | c :: cs => by
      rw [dropEndSp_cons]
      by_cases he : (List.dropWhile isPySp cs.reverse).isEmpty = true
      · rw [if_pos he]
        have hde : dropEndSp cs = [] := by
          unfold dropEndSp
          rw [List.isEmpty_iff.mp he]
          rfl
        by_cases hc : isPySp c = true
        · have h1 : List.dropWhile isPySp [c] = [] := by
            rw [List.dropWhile_cons_of_pos hc]
            rfl
          rw [h1, List.dropWhile_cons_of_pos hc, ← dropWhileSp_dropEnd_comm cs, hde]
          rfl
        · have h1 : List.dropWhile isPySp [c] = [c] := by
            rw [List.dropWhile_cons_of_neg (by simp [hc])]
          rw [h1, List.reverse_singleton, h1, List.dropWhile_cons_of_neg (by simp [hc]),
            dropEndSp_cons, if_pos he, h1, List.reverse_singleton]
      · rw [if_neg he]
        by_cases hc : isPySp c = true
        · rw [List.dropWhile_cons_of_pos hc, List.dropWhile_cons_of_pos hc]
          exact dropWhileSp_dropEnd_comm cs
        · rw [List.dropWhile_cons_of_neg (by simp [hc]),
            List.dropWhile_cons_of_neg (by simp [hc]), dropEndSp_cons, if_neg he]

theorem dropEndSp_idem (l : List Char) : dropEndSp (dropEndSp l) = dropEndSp l := by
  unfold dropEndSp
  rw [List.reverse_reverse, dropWhileSp_idem]

/-- Stripping is idempotent. -/

theorem stripL_idem (l : List Char) : stripL (stripL l) = stripL l := by
  rw [stripL_eq_dropEnd l, stripL_eq_dropEnd, dropWhileSp_dropEnd_comm, dropWhileSp_idem,
    dropEndSp_idem]

theorem mem_of_mem_dropWhileSp {c : Char} {l : List Char}
    (h : c ∈ List.dropWhile isPySp l) : c ∈ l := by
  have hsplit := List.takeWhile_append_dropWhile isPySp l
  rw [← hsplit]
  exact List.mem_append_right _ h

theorem mem_of_mem_dropEnd {c : Char} {l : List Char} (h : c ∈ dropEndSp l) : c ∈ l := by
  unfold dropEndSp at h
  rw [List.mem_reverse] at h
  have := mem_of_mem_dropWhileSp h
  rwa [List.mem_reverse] at this

theorem mem_of_mem_stripL {c : Char} {l : List Char} (h : c ∈ stripL l) : c ∈ l := by
  rw [stripL_eq_dropEnd] at h
  exact mem_of_mem_dropWhileSp (mem_of_mem_dropEnd h)

theorem chain'_dropWhileSp {l : List Char} (h : List.Chain' spRel l) :
    List.Chain' spRel (List.dropWhile isPySp l) := by
  rw [← List.takeWhile_append_dropWhile isPySp l] at h
  exact h.right_of_append

theorem chain'_reverse_sp {l : List Char} (h : List.Chain' spRel l) :
    List.Chain' spRel l.reverse := by
  rw [List.chain'_reverse]
  exact h.imp (fun a b hab => hab.symm)

theorem chain'_dropEnd {l : List Char} (h : List.Chain' spRel l) :
    List.Chain' spRel (dropEndSp l) :=
  chain'_reverse_sp (chain'_dropWhileSp (chain'_reverse_sp h))

theorem chain'_stripL {l : List Char} (h : List.Chain' spRel l) :
    List.Chain' spRel (stripL l) := by
  rw [stripL_eq_dropEnd]
  exact chain'_dropEnd (chain'_dropWhileSp h)

theorem breaksToSpace_mem {c : Char} {m : List Char} (h : c ∈ breaksToSpace m) :
    c = ' ' ∨ c ∈ m := by
  unfold breaksToSpace at h
  rcases List.mem_map.mp h with ⟨a, ha, hfa⟩
  by_cases hb : (a = '\n' || a = '\r' || a = '\t') = true
  · left
    rw [← hfa]
    simp [hb]
  · right
    rw [← hfa]
    simp only [hb, Bool.false_eq_true, if_false]
    exact ha

/-- The cleaned text holds no comma. -/

theorem cleanTextL_no_comma {l : List Char} {c : Char} (h : c ∈ cleanTextL l) : c ≠ ',' := by
  unfold cleanTextL at h
  have h1 := mem_of_mem_stripL h
  rcases squashL_mem _ _ h1 with h2 | ⟨h3, _⟩
  · subst h2; decide
  · rcases breaksToSpace_mem h3 with h4 | h5
    · subst h4; decide
    · have := (List.mem_filter.mp h5).2
      simpa using this

/-- Every whitespace character of the cleaned text is a plain space. -/

theorem cleanTextL_sp_space {l : List Char} {c : Char} (h : c ∈ cleanTextL l)
    (hsp : isPySp c = true) : c = ' ' := by
  unfold cleanTextL at h
  have h1 := mem_of_mem_stripL h
  rcases squashL_mem _ _ h1 with h2 | ⟨_, h3⟩
  · exact h2
  · rw [hsp] at h3
    cases h3

theorem chain'_cleanTextL (l : List Char) : List.Chain' spRel (cleanTextL l) :=
  chain'_stripL (chain'_squashL _)

/-- One full pass of the text cleaner fixes its own output. -/

theorem cleanTextL_idem (l : List Char) : cleanTextL (cleanTextL l) = cleanTextL l := by
  have hfilter : (cleanTextL l).filter (fun c => c ≠ ',') = cleanTextL l := by
    apply List.filter_eq_self.mpr
    intro a ha
    simpa using cleanTextL_no_comma ha
  have hbreaks : breaksToSpace (cleanTextL l) = cleanTextL l := by
    unfold breaksToSpace
    have hpt : ∀ a ∈ cleanTextL l, (if a = '\n' || a = '\r' || a = '\t' then ' ' else a) = a := by
      intro a ha
      by_cases hb : (a = '\n' || a = '\r' || a = '\t') = true
      · have hsp : isPySp a = true := by
          rcases Bool.or_eq_true_iff.mp hb with h | h
          · rcases Bool.or_eq_true_iff.mp h with h | h <;>
              · have := of_decide_eq_true h; subst this; decide
          · have := of_decide_eq_true h; subst this; decide
        have := cleanTextL_sp_space ha hsp
        subst this
        simp at hb
      · simp only [hb, Bool.false_eq_true, if_false]
    calc (cleanTextL l).map (fun a => if a = '\n' || a = '\r' || a = '\t' then ' ' else a)
        = (cleanTextL l).map (fun a => a) := List.map_congr_left hpt
      _ = cleanTextL l := List.map_id _
  have hsquash : squashL (cleanTextL l) = cleanTextL l :=
    squashL_eq_self _ (fun c hc h => cleanTextL_sp_space hc h) (chain'_cleanTextL l)
  have hstrip : stripL (cleanTextL l) = cleanTextL l := by
    show stripL (stripL (squashL (breaksToSpace (l.filter (fun c => c ≠ ','))))) = _
    rw [stripL_idem]
    rfl
  show stripL (squashL (breaksToSpace ((cleanTextL l).filter (fun c => c ≠ ',')))) = _
  rw [hfilter, hbreaks, hsquash, hstrip]

/-- Claim C8: the text cleaner is idempotent — feeding its output back
in (as a string cell) returns the same string. -/

theorem c8_cleanText_idempotent (text : Cell) :
    clean_text_field (Cell.str (clean_text_field text)) = clean_text_field text := by
  cases text with
  | na => rfl
  | str s =>
      simp only [clean_text_field, Cell.isna, Bool.false_eq_true, if_false, pyStr]
      exact congrArg String.mk (cleanTextL_idem s.toList)
  | num q =>
      simp only [clean_text_field, Cell.isna, Bool.false_eq_true, if_false, pyStr]
      exact congrArg String.mk (cleanTextL_idem (toString q).toList)

/-- Claim C10: the phone cleaner is idempotent — feeding its output
back in (as a string cell) returns the same string. -/

theorem c10_phone_idempotent (phone : Cell) :
    clean_phone_number (Cell.str (clean_phone_number phone)) = clean_phone_number phone := by
  cases phone with
  | na => rfl
  | str s =>
      show String.mk _ = String.mk _
      simp only [clean_phone_number, Cell.isna, if_false, pyStr]
      exact congrArg String.mk (phone_filter_idem s.toList)
  | num q =>
      show String.mk _ = String.mk _
      simp only [clean_phone_number, Cell.isna, if_false, pyStr]
      exact congrArg String.mk (phone_filter_idem (toString q).toList)

/-- Claim C9: an input path whose lower-cased extension is not
`.xlsx`, `.xls` or `.csv` makes the run fail before any data is
loaded, and no output file is written. -/
theorem c9_bad_extension (f : InputFile)
    (h : ¬ pyLower f.suffix ∈ VALID_EXTENSIONS) :
    process f = { success := false, dataLoaded := false, written := [] } := by
  have hv : validate_input_file f = false := by
    unfold validate_input_file
    have hc : VALID_EXTENSIONS.contains (pyLower f.suffix) = false := by simpa using h
    rw [hc, Bool.and_false]
  unfold process
  rw [hv]
  simp

theorem c9_witness :
    (¬ pyLower ".txt" ∈ VALID_EXTENSIONS) ∧
    process { present := true, suffix := ".txt", content := none } =
      { success := false, dataLoaded := false, written := [] } :=
  ⟨by decide, c9_bad_extension _ (by decide)⟩

/-- Counterexample to claim C4 as stated: cleaning a table whose
country field is empty rewrites the country to `"XX"` but leaves both
caller-visible issue sequences empty — the degraded-case warning lives
only in the internal log, so no event is observable by the caller. -/
theorem c4_counterexample :
    (clean_data c4EmptyCountryState).map
        (fun st => (st.df, st.validation_warnings, st.validation_errors)) =
      some ({ header := [COUNTRY_COL], rows := [[Cell.str "XX"]] }, [], []) := by
  decide

/-- Claim C4 amended: the standardizer does return `"XX"` for empty or
missing country input, but the warning is only written to the internal
logger: the cleaning step never appends to the caller-visible issue
sequences, for this or for the unknown-country fallback. -/

theorem c4_degraded_case_not_surfaced (st st' : PState)
    (h : clean_data st = some st') :
    standardize_country Cell.na = "XX" ∧
    standardize_country (Cell.str "") = "XX" ∧
    st'.validation_warnings = st.validation_warnings ∧
    st'.validation_errors = st.validation_errors := by
  unfold clean_data at h
  injection h with h2
  subst h2
  exact ⟨rfl, rfl, rfl, rfl⟩

theorem c4_witness :
    standardize_country Cell.na = "XX" ∧
    standardize_country (Cell.str "") = "XX" ∧
    ([] : List String) = [] ∧ ([] : List String) = [] :=
  c4_degraded_case_not_surfaced c4EmptyCountryState
    { df := { header := [COUNTRY_COL], rows := [[Cell.str "XX"]] },
      validation_errors := [], validation_warnings := [] } (by decide)

/-- A successful column lookup points at the column of that name. -/
theorem colIdx_getD (header : List String) (name : String) :
    ∀ i, colIdx header name = some i → header.getD i "" = name := by
  induction header with
  | nil => intro i h; exact absurd h (by simp [colIdx])
  | cons hd tl ih =>
      intro i h
      rw [colIdx] at h
      by_cases hh : hd = name
      · rw [if_pos hh] at h
        injection h with h2
        subst h2
        simpa [List.getD] using hh
      · rw [if_neg hh] at h
        cases hcl : colIdx tl name with
        | none => rw [hcl] at h; cases h
        | some j =>
            rw [hcl, Option.map_some'] at h
            injection h with h2
            subst h2
            simpa [List.getD_cons_succ] using ih j hcl

/-- Lookups of distinct column names give distinct positions. -/

theorem colIdx_ne (header : List String) (n1 n2 : String) (i j : Nat)
    (h1 : colIdx header n1 = some i) (h2 : colIdx header n2 = some j)
    (hne : n1 ≠ n2) : i ≠ j := by
  intro he
  subst he
  exact hne ((colIdx_getD header n1 i h1).symm.trans (colIdx_getD header n2 i h2))

/-- When the three numeric columns resolve, the reconciliation step is
its core on the found positions. -/

theorem calculate_declared_values_eq (st : PState) (qi pi0 vi : Nat)
    (hq : colIdx st.df.header QTY_COL = some qi)
    (hp : colIdx st.df.header PRICE_COL = some pi0)
    (hv : colIdx st.df.header VALUE_COL = some vi) :
    calculate_declared_values st = calcWithCols st qi pi0 vi := by
  unfold calculate_declared_values
  rw [hq, hp, hv]

/-- Reading next to a written position is unchanged. -/

theorem cellAt_set_ne (r : List Cell) (i j : Nat) (x : Cell) (hij : i ≠ j) :
    cellAt (r.set i x) j = cellAt r j := by
  unfold cellAt
  rw [List.getD_eq_getElem?_getD, List.getD_eq_getElem?_getD, List.getElem?_set_ne hij]

/-- Writing a position inside the row is read back. -/

theorem cellAt_set_self_of_lt (r : List Cell) (i : Nat) (x : Cell) (h : i < r.length) :
    cellAt (r.set i x) i = x := by
  unfold cellAt
  rw [List.getD_eq_getElem?_getD, List.getElem?_set_self h]
  rfl

/-- Writing past the end of the row is a no-op and reads `NaN`. -/

theorem cellAt_set_self_of_ge (r : List Cell) (i : Nat) (x : Cell) (h : r.length ≤ i) :
    cellAt (r.set i x) i = Cell.na := by
  unfold cellAt
  rw [List.set_eq_of_length_le h, List.getD_eq_getElem?_getD, List.getElem?_eq_none h]
  rfl

/-- One warning is produced per mismatching row. -/

theorem mismWarningsAux_length (qi pi0 vi ri : Nat) :
    ∀ (idx : Nat) (rows : List (List Cell)),
      (mismWarningsAux qi pi0 vi ri idx rows).length =
        (rows.filter (fun r => mismRow qi pi0 vi r)).length
  | _, [] => rfl
  | idx, r :: rest => by
      by_cases hm : mismRow qi pi0 vi r = true
      · simp [mismWarningsAux, hm, List.filter_cons,
          mismWarningsAux_length qi pi0 vi ri (idx + 1) rest]
      · simp [mismWarningsAux, hm, List.filter_cons,
          mismWarningsAux_length qi pi0 vi ri (idx + 1) rest]


unseal Rat.mul Rat.add Rat.sub Rat.inv in
/-- Counterexample to claim C2 as stated: the second row's declared
value 9.99 is within 0.01 of 1 × 10, yet because another row mismatches
the step overwrites the whole column, so the within-tolerance row does
not keep its declared value. -/
theorem c2_counterexample :
    |(999/100 : ℚ) - 1 * 10| ≤ 1/100 ∧
    (999/100 : ℚ) ≠ 10 ∧
    (calculate_declared_values c2MixedState).map
        (fun st => st.df.rows.map (fun r => cellAt r 3)) =
      some [Cell.num 10, Cell.num 10] := by
  exact ⟨by decide, by decide, by decide⟩

/-- Claim C2 amended: warnings are emitted exactly for the rows whose
declared value differs from quantity × unit price by more than 0.01;
when no row exceeds the tolerance, nothing changes at all; but when at
least one row exceeds it, the step overwrites the declared value of
every row (including within-tolerance rows) with quantity × unit
price.  The step never adds errors. -/

theorem c2_overwrite_semantics (st st' : PState) (qi pi0 vi : Nat)
    (hq : colIdx st.df.header QTY_COL = some qi)
    (hp : colIdx st.df.header PRICE_COL = some pi0)
    (hv : colIdx st.df.header VALUE_COL = some vi)
    (h : calculate_declared_values st = some st') :
    ((∀ r ∈ st.df.rows, mismRow qi pi0 vi r = false) → st' = st) ∧
    ((∃ r ∈ st.df.rows, mismRow qi pi0 vi r = true) →
      st'.df.rows = st.df.rows.map (fun r =>
        r.set vi (match optMul (cellQ (cellAt r qi)) (cellQ (cellAt r pi0)) with
                  | some q => Cell.num q
                  | none => Cell.na))) ∧
    st'.validation_warnings.length =
      st.validation_warnings.length +
        (st.df.rows.filter (fun r => mismRow qi pi0 vi r)).length ∧
    st'.validation_errors = st.validation_errors := by
  rw [calculate_declared_values_eq st qi pi0 vi hq hp hv] at h
  unfold calcWithCols at h
  by_cases hnum : numTypedOK st.df qi pi0 vi = true
  case neg => rw [if_neg hnum] at h; cases h
  rw [if_pos hnum] at h
  by_cases hany : st.df.rows.any (fun r => mismRow qi pi0 vi r) = true
  · rw [if_pos hany] at h
    cases hri : colIdx st.df.header REF_COL with
    | none => rw [hri] at h; cases h
    | some ri =>
        rw [hri] at h
        injection h with h2
        subst h2
        refine ⟨?_, fun _ => rfl, ?_, rfl⟩
        · intro hall
          obtain ⟨r, hr, hm⟩ := List.any_eq_true.mp hany
          rw [hall r hr] at hm
          cases hm
        · show (st.validation_warnings ++ mismWarnings st.df qi pi0 vi ri).length = _
          rw [List.length_append]
          congr 1
          exact mismWarningsAux_length qi pi0 vi ri 0 st.df.rows
  · rw [if_neg hany] at h
    injection h with h2
    subst h2
    have hall : ∀ r ∈ st.df.rows, mismRow qi pi0 vi r = false := by
      intro r hr
      have hfalse : st.df.rows.any (fun r => mismRow qi pi0 vi r) = false := by
        simpa using hany
      simpa using List.any_eq_false.mp hfalse r hr
    refine ⟨fun _ => rfl, ?_, ?_, rfl⟩
    · intro hex
      obtain ⟨r, hr, hm⟩ := hex
      rw [hall r hr] at hm
      cases hm
    · have hfil : st.df.rows.filter (fun r => mismRow qi pi0 vi r) = [] :=
        List.filter_eq_nil_iff.mpr (fun r hr => by simp [hall r hr])
      rw [hfil]
      simp


unseal Rat.mul Rat.add Rat.sub Rat.inv in
theorem c2_witness :
    ((∀ r ∈ c2MixedState.df.rows, mismRow 1 2 3 r = false) → c2Result = c2MixedState) ∧
    ((∃ r ∈ c2MixedState.df.rows, mismRow 1 2 3 r = true) →
      c2Result.df.rows = c2MixedState.df.rows.map (fun r =>
        r.set 3 (match optMul (cellQ (cellAt r 1)) (cellQ (cellAt r 2)) with
                 | some q => Cell.num q
                 | none => Cell.na))) ∧
    c2Result.validation_warnings.length =
      c2MixedState.validation_warnings.length +
        (c2MixedState.df.rows.filter (fun r => mismRow 1 2 3 r)).length ∧
    c2Result.validation_errors = c2MixedState.validation_errors :=
  c2_overwrite_semantics c2MixedState c2Result 1 2 3 (by decide) (by decide) (by decide)
    (by decide)


unseal Rat.mul Rat.add Rat.sub Rat.inv in
/-- Counterexample to claim C5 as stated: on a row with a missing
quantity the step completes without touching the row (a `NaN`
comparison is never a mismatch), yet the resulting row does not satisfy
the tolerance property, whose comparison against `NaN` is false. -/
theorem c5_counterexample :
    calculate_declared_values c5NaState = some c5NaState ∧
    rowWithinTol 1 2 3 (c5NaState.df.rows.getD 0 []) = false := by
  exact ⟨by decide, by decide⟩

/-- Claim C5 amended: after a completed reconciliation, every row
whose quantity, unit price and declared value are all present satisfies
`|declaredValue - quantity × unitPrice| ≤ 0.01`; rows with missing
numeric cells are passed through unreconciled. -/

theorem c5_tolerance_after_reconciliation (st st' : PState) (qi pi0 vi : Nat)
    (hq : colIdx st.df.header QTY_COL = some qi)
    (hp : colIdx st.df.header PRICE_COL = some pi0)
    (hv : colIdx st.df.header VALUE_COL = some vi)
    (h : calculate_declared_values st = some st')
    (r : List Cell) (hr : r ∈ st'.df.rows)
    (q p v : ℚ)
    (hqc : cellAt r qi = Cell.num q)
    (hpc : cellAt r pi0 = Cell.num p)
    (hvc : cellAt r vi = Cell.num v) :
    |v - q * p| ≤ 1/100 := by
  rw [calculate_declared_values_eq st qi pi0 vi hq hp hv] at h
  unfold calcWithCols at h
  by_cases hnum : numTypedOK st.df qi pi0 vi = true
  case neg => rw [if_neg hnum] at h; cases h
  rw [if_pos hnum] at h
  by_cases hany : st.df.rows.any (fun r => mismRow qi pi0 vi r) = true
  · rw [if_pos hany] at h
    cases hri : colIdx st.df.header REF_COL with
    | none => rw [hri] at h; cases h
    | some ri =>
        rw [hri] at h
        injection h with h2
        subst h2
        obtain ⟨r0, hr0, hset⟩ := List.mem_map.mp hr
        subst hset
        have hqv : qi ≠ vi := colIdx_ne _ _ _ _ _ hq hv (by decide)
        have hpv : pi0 ≠ vi := colIdx_ne _ _ _ _ _ hp hv (by decide)
        rw [cellAt_set_ne r0 vi qi _ (Ne.symm hqv)] at hqc
        rw [cellAt_set_ne r0 vi pi0 _ (Ne.symm hpv)] at hpc
        by_cases hlen : vi < r0.length
        · rw [cellAt_set_self_of_lt r0 vi _ hlen] at hvc
          rw [hqc, hpc] at hvc
          simp only [cellQ, optMul] at hvc
          injection hvc with hveq
          rw [← hveq]
          simp
        · rw [cellAt_set_self_of_ge r0 vi _ (Nat.le_of_not_lt hlen)] at hvc
          cases hvc
  · rw [if_neg hany] at h
    injection h with h2
    subst h2
    have hfalse : st.df.rows.any (fun r => mismRow qi pi0 vi r) = false := by
      simpa using hany
    have hm := List.any_eq_false.mp hfalse r hr
    simp only [mismRow, mismatchTol, hqc, hpc, hvc, cellQ, optMul] at hm
    have := le_of_not_lt (by simpa using hm)
    linarith [this]


theorem updateRow_self (row : String → Cell) (f : String) (c : Cell) :
    updateRow row f c f = c := by
  unfold updateRow
  rw [if_pos rfl]

theorem updateRow_ne (row : String → Cell) (f g : String) (c : Cell) (hne : g ≠ f) :
    updateRow row f c g = row g := by
  unfold updateRow
  rw [if_neg hne]

/-- The empty string counts as a missing field. -/

theorem missingCell_empty : missingCell (Cell.str "") = true := rfl

/-- Claim C6: a record with the six required address fields present
validates cleanly; emptying exactly one of them yields exactly one
error, tagged with the reference and naming the field (the phone field
through its dedicated `Missing phone number` message). -/

theorem c6_address_validator (row : String → Cell) (refS : String)
    (hreq : ∀ f ∈ REQUIRED_FIELDS, missingCell (row f) = false)
    (hph : missingCell (row PHONE_COL) = false) :
    validate_address row refS = (true, []) ∧
    (∀ f ∈ REQUIRED_FIELDS,
      validate_address (updateRow row f (Cell.str "")) refS =
        (false, ["Ref#" ++ refS ++ ": Missing required field: " ++ f])) ∧
    validate_address (updateRow row PHONE_COL (Cell.str "")) refS =
      (false, ["Ref#" ++ refS ++ ": Missing phone number"]) := by
  have h1 := hreq "SHIP TO ATTENTION (required)" (by decide)
  have h2 := hreq "SHIP TO ADDRESS LINE 1 (required)" (by decide)
  have h3 := hreq "CITY (required)" (by decide)
  have h4 := hreq "COUNTRY (required)" (by decide)
  have h5 := hreq "POSTAL CODE (required)" (by decide)
  refine ⟨?_, ?_, ?_⟩
  · simp [validate_address, REQUIRED_FIELDS, h1, h2, h3, h4, h5, hph]
  · intro f hf
    have hf5 : f = "SHIP TO ATTENTION (required)" ∨ f = "SHIP TO ADDRESS LINE 1 (required)"
        ∨ f = "CITY (required)" ∨ f = "COUNTRY (required)" ∨ f = "POSTAL CODE (required)" := by
      simpa [REQUIRED_FIELDS] using hf
    have hpne : PHONE_COL ≠ f := by
      rcases hf5 with h | h | h | h | h <;> (subst h; decide)
    rcases hf5 with h | h | h | h | h <;> subst h <;>
      simp [validate_address, REQUIRED_FIELDS, updateRow_self, missingCell_empty,
        updateRow_ne row _ _ _ hpne, updateRow_ne, h1, h2, h3, h4, h5, hph]
  · simp [validate_address, REQUIRED_FIELDS, PHONE_COL, updateRow_self, missingCell_empty,
      updateRow_ne, h1, h2, h3, h4, h5]

theorem c6_witness :
    validate_address (fun g => Cell.str g) "7" = (true, []) ∧
    (∀ f ∈ REQUIRED_FIELDS,
      validate_address (updateRow (fun g => Cell.str g) f (Cell.str "")) "7" =
        (false, ["Ref#" ++ "7" ++ ": Missing required field: " ++ f])) ∧
    validate_address (updateRow (fun g => Cell.str g) PHONE_COL (Cell.str "")) "7" =
      (false, ["Ref#" ++ "7" ++ ": Missing phone number"]) :=
  c6_address_validator (fun g => Cell.str g) "7" (by decide) (by decide)

unseal Rat.mul Rat.add Rat.sub Rat.inv in
theorem c5_witness : |(10 : ℚ) - 2 * 5| ≤ 1/100 :=
  c5_tolerance_after_reconciliation c5OkState c5OkState 1 2 3 (by decide) (by decide)
    (by decide) (by decide) [Cell.num 1, Cell.num 2, Cell.num 5, Cell.num 10]
    (by decide) 2 5 10 (by decide) (by decide) (by decide)

theorem updateColumn_header (t : Table) (name : String) (f : Cell → Cell) :
    (updateColumn t name f).header = t.header := by
  unfold updateColumn
  cases colIdx t.header name <;> rfl

theorem foldl_updateColumn_header (g : Cell → Cell) :
    ∀ (cols : List String) (t : Table),
      (cols.foldl (fun acc col => updateColumn acc col g) t).header = t.header
  | [], _ => rfl
  | c :: cs, t => by
      rw [List.foldl_cons, foldl_updateColumn_header g cs _, updateColumn_header]

/-- Cleaning renames no columns. -/

theorem cleanDF_header (t : Table) : (cleanDF t).header = t.header := by
  unfold cleanDF applyTextCleaners
  rw [updateColumn_header, foldl_updateColumn_header, updateColumn_header,
    foldl_updateColumn_header]

/-- Reconciliation renames no columns. -/

theorem calculate_declared_values_header (st st' : PState)
    (h : calculate_declared_values st = some st') : st'.df.header = st.df.header := by
  unfold calculate_declared_values at h
  split at h
  case h_2 => cases h
  case h_1 qi pi0 vi _ =>
    unfold calcWithCols at h
    split at h
    case isFalse => cases h
    split at h
    case isFalse => injection h with h2; rw [← h2]
    split at h
    case h_2 => cases h
    case h_1 ri _ =>
      injection h with h2
      rw [← h2]
      rfl

/-- Address validation only appends errors. -/

theorem validate_addresses_df (st st' : PState)
    (h : validate_addresses st = some st') :
    st'.df = st.df ∧ st'.validation_warnings = st.validation_warnings := by
  unfold validate_addresses at h
  split at h
  case h_1 => cases h
  case h_2 ri _ =>
    split at h
    case h_1 => cases h
    case h_2 es _ =>
      injection h with h2
      rw [← h2]
      exact ⟨rfl, rfl⟩

/-- With a rounding-safe commodity table and the reference column
present, saving writes all three artifacts and reports success. -/

theorem save_csvs_three (st : PState) (rec com com2 : Table) (ri : Nat)
    (hround : roundCols com = some com2)
    (href : colIdx st.df.header REF_COL = some ri) :
    save_csvs st rec com =
      (true, [OutputFile.recipientFile rec, OutputFile.commodityFile com2,
              OutputFile.reportFile (mkReport st ri)]) := by
  unfold save_csvs
  rw [hround, href]

/-- Claim C1 amended: the pipeline never checks the column count.  On
an input table with 30 columns, provided the steps that depend only on
the named columns go through (numeric quantity/price/value columns, a
reference column, roundable commodity prices), the run reaches the end
with success and writes all three output files — the split silently
produces a 9-column commodity table instead of failing. -/

theorem c1_no_column_count_check (f : InputFile) (t : Table) (st2 st3 : PState)
    (hp : f.present = true)
    (hs : VALID_EXTENSIONS.contains (pyLower f.suffix) = true)
    (hc : f.content = some t)
    (_hlen : t.header.length = 30)
    (hcalc : calculate_declared_values
      { df := cleanDF t, validation_errors := [], validation_warnings := [] } = some st2)
    (haddr : validate_addresses st2 = some st3)
    (hrnd : (roundCols (commodityOf st3.df)).isSome = true)
    (href : colIdx t.header REF_COL ≠ none) :
    (process f).success = true ∧ (process f).dataLoaded = true ∧
    (process f).written.length = 3 := by
  have hval : validate_input_file f = true := by
    unfold validate_input_file
    rw [hp, hs]
    rfl
  have hproc : process f = processTable t := by
    simp only [process, hval, hc, if_true]
  obtain ⟨com2, hcom2⟩ := Option.isSome_iff_exists.mp hrnd
  have hhdr3 : st3.df.header = t.header := by
    rw [(validate_addresses_df st2 st3 haddr).1,
      calculate_declared_values_header _ st2 hcalc]
    exact cleanDF_header t
  obtain ⟨ri, hri⟩ : ∃ ri, colIdx t.header REF_COL = some ri := by
    cases hx : colIdx t.header REF_COL with
    | none => exact absurd hx href
    | some ri => exact ⟨ri, rfl⟩
  have hri3 : colIdx st3.df.header REF_COL = some ri := by rw [hhdr3]; exact hri
  have hsave := save_csvs_three st3 (recipientOf st3.df) (commodityOf st3.df) com2 ri
    hcom2 hri3
  have e1 : processTable t =
      afterCalc (calculate_declared_values
        { df := cleanDF t, validation_errors := [], validation_warnings := [] }) := rfl
  have e2 : afterCalc (some st2) = afterValidate (validate_addresses st2) := rfl
  have e3 : afterValidate (some st3) = afterSplit (split_data st3) := rfl
  have e4 : split_data st3 = some (st3, recipientOf st3.df, commodityOf st3.df) := rfl
  have e5 : afterSplit (some (st3, recipientOf st3.df, commodityOf st3.df)) =
      { success := (save_csvs st3 (recipientOf st3.df) (commodityOf st3.df)).1,
        dataLoaded := true,
        written := (save_csvs st3 (recipientOf st3.df) (commodityOf st3.df)).2 } := rfl
  rw [hproc, e1, hcalc, e2, haddr, e3, e4, e5, hsave]
  exact ⟨rfl, rfl, rfl⟩


set_option maxHeartbeats 2000000 in
unseal Rat.mul Rat.add Rat.sub Rat.inv in
/-- Counterexample to claim C1 as stated: a 30-column input makes the
pipeline succeed and write all three output files, rather than reach
the failed state with no outputs. -/
theorem c1_counterexample :
    c1Table.header.length = 30 ∧
    (process c1File).success = true ∧
    (process c1File).written.length = 3 := by
  exact ⟨by decide, by decide, by decide⟩

set_option maxHeartbeats 2000000 in
unseal Rat.mul Rat.add Rat.sub Rat.inv in
theorem c1_witness :
    (process c1File).success = true ∧ (process c1File).dataLoaded = true ∧
    (process c1File).written.length = 3 :=
  c1_no_column_count_check c1File c1Table
    { df := cleanDF c1Table, validation_errors := [], validation_warnings := [] }
    { df := cleanDF c1Table, validation_errors := [], validation_warnings := [] }
    (by decide) (by decide) (by decide) (by decide) (by decide) (by decide)
    (by decide) (by decide)

end FedEx
